import Mathlib

/-!
Verification of the ArchiDesigner interior-design app core
(session/history engine, geometry normalization, persistence layer).

The definitions below are a shallow embedding of the TypeScript source:
  - `App.tsx` (session manager and history engine),
  - `services/storageService.ts` (serialization / persistence),
  - `services/geminiService.ts` (geometry normalization),
  - `types.ts` (data model).
Binary image files are modelled as lists of bytes (naturals below 256);
the `historyIndex` cursor and JS numbers holding integers are modelled
as `Int`; fractional pixel arithmetic is modelled as `ℚ`.
-/

set_option autoImplicit false

namespace ArchiDesigner

/-! ### Data model (types.ts) -/

/-- A browser `File` object: name, MIME type, and binary payload (bytes). -/
structure FileData where
  name : String
  type : String
  data : List Nat
deriving Repr, DecidableEq

/-- Pixel dimensions record `{width, height}` as stored on a session. -/
structure Dimensions where
  width : Int
  height : Int
deriving Repr, DecidableEq

/-- `DesignSession` from types.ts: one project. -/
structure DesignSession where
  id : String
  name : String
  timestamp : Int
  thumbnail : String
  sceneImage : FileData
  originalDimensions : Dimensions
  generations : List FileData
deriving Repr, DecidableEq

/-- The React component state of `App.tsx` that the claims are about:
the session collection, the active-session pointer, and the active
session's working state (scene, product, sketch, history + cursor,
prompt, original dimensions, error message). -/
structure AppState where
  sessions : List DesignSession
  activeSessionId : Option String
  sceneImage : Option FileData
  productImage : Option FileData
  sketchedImage : Option FileData
  history : List FileData
  historyIndex : Int
  prompt : String
  originalDimensions : Option Dimensions
  error : Option String
deriving Repr, DecidableEq

/-- The initial component state: all `useState` initializers of `App.tsx`
(empty sessions, no active id, empty history, cursor `-1`, empty prompt). -/
def initState : AppState :=
  { sessions := []
  , activeSessionId := none
  , sceneImage := none
  , productImage := none
  , sketchedImage := none
  , history := []
  , historyIndex := -1
  , prompt := ""
  , originalDimensions := none
  , error := none }

/-! ### History engine (App.tsx) -/

/-- JavaScript `l.slice(0, e)`: a negative end index counts from the end
of the array (`max(length + e, 0)`), a nonnegative one is an exclusive
upper bound. -/
def sliceToEnd {α : Type} (l : List α) (e : Int) : List α :=
  if e < 0 then l.take ((l.length : Int) + e).toNat else l.take e.toNat

/-- `currentGeneratedImage = history[historyIndex] ?? null` (App.tsx line 82):
JS index out of range (including negative) yields `undefined`, hence `null`. -/
def currentGeneratedImage (s : AppState) : Option FileData :=
  if s.historyIndex < 0 then none else s.history.get? s.historyIndex.toNat

/-- `addImageToHistory` (App.tsx lines 213-224): truncate the history to
`slice(0, historyIndex + 1)`, push the new image, move the cursor to the
new last index, and mirror the new history into the active session's
`generations`. -/
def addImageToHistory (s : AppState) (newImage : FileData) : AppState :=
  let newHistory := sliceToEnd s.history (s.historyIndex + 1) ++ [newImage]
  let s1 := { s with history := newHistory
                   , historyIndex := (newHistory.length : Int) - 1 }
  match s.activeSessionId with
  | some aid =>
      { s1 with sessions := s1.sessions.map fun x =>
          if x.id == aid then { x with generations := newHistory } else x }
  | none => s1

/-- `handleUndo` (App.tsx line 337): `historyIndex >= 0 && setHistoryIndex(historyIndex - 1)`. -/
def handleUndo (s : AppState) : AppState :=
  if 0 ≤ s.historyIndex then { s with historyIndex := s.historyIndex - 1 } else s

/-- `handleRedo` (App.tsx line 338): `historyIndex < history.length - 1 && setHistoryIndex(historyIndex + 1)`. -/
def handleRedo (s : AppState) : AppState :=
  if s.historyIndex < (s.history.length : Int) - 1 then
    { s with historyIndex := s.historyIndex + 1 }
  else s

/-- `handleRevertToOriginal` (App.tsx lines 310-319): clear the history,
reset the cursor to `-1`, drop the pending sketch, and clear the active
session's stored `generations`. -/
def handleRevertToOriginal (s : AppState) : AppState :=
  let s1 := { s with history := [], historyIndex := -1, sketchedImage := none }
  match s.activeSessionId with
  | some aid =>
      { s1 with sessions := s1.sessions.map fun x =>
          if x.id == aid then { x with generations := [] } else x }
  | none => s1

/-- The four history-engine transitions named by the spec. -/
inductive HistOp where
  | append (img : FileData)
  | undo
  | redo
  | revert
deriving Repr, DecidableEq

/-- One history-engine transition applied to the component state. -/
def histStep (s : AppState) : HistOp → AppState
  | .append img => addImageToHistory s img
  | .undo => handleUndo s
  | .redo => handleRedo s
  | .revert => handleRevertToOriginal s

/-- Run a sequence of history-engine transitions from the initial state. -/
def runOps (ops : List HistOp) : AppState :=
  ops.foldl histStep initState

/-- The spec's history invariant: the cursor is `-1` or a valid index. -/
def CursorInv (s : AppState) : Prop :=
  -1 ≤ s.historyIndex ∧ s.historyIndex ≤ (s.history.length : Int) - 1

/-! ### Concrete images for scenario claims -/

/-- Concrete generation image A for the spec's branch-truncation scenario. -/
def imgA : FileData := ⟨"A.jpeg", "image/jpeg", [10]⟩

/-- Concrete generation image B for the spec's branch-truncation scenario. -/
def imgB : FileData := ⟨"B.jpeg", "image/jpeg", [11]⟩

/-- Concrete generation image C for the spec's branch-truncation scenario. -/
def imgC : FileData := ⟨"C.jpeg", "image/jpeg", [12]⟩

/-- Concrete generation image D for the spec's branch-truncation scenario. -/
def imgD : FileData := ⟨"D.jpeg", "image/jpeg", [13]⟩

/-! ### Lemmas about the history engine -/

/-- After any `addImageToHistory` the cursor sits at the new last index. -/
theorem addImageToHistory_cursor_last (s : AppState) (v : FileData) :
    (addImageToHistory s v).historyIndex
      = ((addImageToHistory s v).history.length : Int) - 1 := by
  unfold addImageToHistory
  cases s.activeSessionId <;> simp

/-- The history after `addImageToHistory`. -/
theorem addImageToHistory_history (s : AppState) (v : FileData) :
    (addImageToHistory s v).history
      = sliceToEnd s.history (s.historyIndex + 1) ++ [v] := by
  unfold addImageToHistory
  cases s.activeSessionId <;> simp

/-- With a cursor at or above `-1`, the JS slice is an ordinary `take`. -/
theorem sliceToEnd_nonneg {α : Type} (l : List α) (e : Int) (h : 0 ≤ e) :
    sliceToEnd l e = l.take e.toNat := by
  unfold sliceToEnd
  rw [if_neg (by omega)]

/-- Each history-engine transition preserves the cursor invariant. -/
theorem cursorInv_step (s : AppState) (op : HistOp) (h : CursorInv s) :
    CursorInv (histStep s op) := by
  obtain ⟨h1, h2⟩ := h
  cases op with
  | append img =>
      have hc := addImageToHistory_cursor_last s img
      have hh := addImageToHistory_history s img
      unfold histStep CursorInv
      rw [hc, hh]
      simp only [List.length_append, List.length_cons, List.length_nil]
      omega
  | undo =>
      unfold histStep handleUndo CursorInv
      by_cases hc : 0 ≤ s.historyIndex
      · rw [if_pos hc]
        show -1 ≤ s.historyIndex - 1 ∧ s.historyIndex - 1 ≤ (s.history.length : Int) - 1
        omega
      · rw [if_neg hc]
        exact ⟨h1, h2⟩
  | redo =>
      unfold histStep handleRedo CursorInv
      by_cases hc : s.historyIndex < (s.history.length : Int) - 1
      · rw [if_pos hc]
        show -1 ≤ s.historyIndex + 1 ∧ s.historyIndex + 1 ≤ (s.history.length : Int) - 1
        omega
      · rw [if_neg hc]
        exact ⟨h1, h2⟩
  | revert =>
      unfold histStep handleRevertToOriginal CursorInv
      cases s.activeSessionId
      · show -1 ≤ (-1 : Int) ∧ (-1 : Int) ≤ (([] : List FileData).length : Int) - 1
        simp
      · show -1 ≤ (-1 : Int) ∧ (-1 : Int) ≤ (([] : List FileData).length : Int) - 1
        simp

/-- The cursor invariant holds along any run from a state satisfying it. -/
theorem cursorInv_foldl (l : List HistOp) (s : AppState) (hs : CursorInv s) :
    CursorInv (l.foldl histStep s) := by
  induction l generalizing s with
  | nil => exact hs
  | cons op rest ih => exact ih _ (cursorInv_step s op hs)

/-- The state used to instantiate the C1 claim concretely: history
`[A, B, C]` with the cursor already moved back to index `0` by two undos. -/
def stateC1 : AppState :=
  { initState with history := [imgA, imgB, imgC], historyIndex := 0 }

/-- C1: for every generations list and cursor in `[-1, length-1]`, the
append operation truncates the history to `slice(0, cursor+1)` (an
ordinary `take` of the first `cursor+1` elements), pushes the new
version, and sets the cursor to the new length minus one; and the spec's
scenario — `[A,B,C]` at cursor 2, then `undo; undo; append D` — yields
`[A,D]` with cursor 1, discarding B and C. -/
theorem claim_C1_append_truncates (s : AppState) (v : FileData)
    (h1 : -1 ≤ s.historyIndex)
    (h2 : s.historyIndex ≤ (s.history.length : Int) - 1) :
    ((addImageToHistory s v).history
        = s.history.take (s.historyIndex + 1).toNat ++ [v]
      ∧ (addImageToHistory s v).historyIndex
        = ((addImageToHistory s v).history.length : Int) - 1)
    ∧ (runOps [HistOp.append imgA, HistOp.append imgB, HistOp.append imgC,
               HistOp.undo, HistOp.undo, HistOp.append imgD]).history = [imgA, imgD]
    ∧ (runOps [HistOp.append imgA, HistOp.append imgB, HistOp.append imgC,
               HistOp.undo, HistOp.undo, HistOp.append imgD]).historyIndex = 1 := by
  refine ⟨⟨?_, addImageToHistory_cursor_last s v⟩, by decide, by decide⟩
  rw [addImageToHistory_history, sliceToEnd_nonneg _ _ (by omega)]

/-- Witness for C1 at a concrete state: history `[A,B,C]`, cursor `0`. -/
theorem claim_C1_append_truncates_witness :
    ((addImageToHistory stateC1 imgD).history
        = stateC1.history.take (stateC1.historyIndex + 1).toNat ++ [imgD]
      ∧ (addImageToHistory stateC1 imgD).historyIndex
        = ((addImageToHistory stateC1 imgD).history.length : Int) - 1)
    ∧ (runOps [HistOp.append imgA, HistOp.append imgB, HistOp.append imgC,
               HistOp.undo, HistOp.undo, HistOp.append imgD]).history = [imgA, imgD]
    ∧ (runOps [HistOp.append imgA, HistOp.append imgB, HistOp.append imgC,
               HistOp.undo, HistOp.undo, HistOp.append imgD]).historyIndex = 1 :=
  claim_C1_append_truncates stateC1 imgD (by decide) (by decide)

/-- C2: for every sequence of append/undo/redo/revert operations starting
from the initial state, the cursor is in `[-1, length(generations)-1]`
(the cursor invariant), and immediately after any append the cursor
equals the new length minus one. -/
theorem claim_C2_cursor_invariant (ops : List HistOp) :
    CursorInv (runOps ops)
    ∧ ∀ img : FileData,
        (runOps (ops ++ [HistOp.append img])).historyIndex
          = ((runOps (ops ++ [HistOp.append img])).history.length : Int) - 1 := by
  constructor
  · exact cursorInv_foldl ops initState ⟨by norm_num [initState], by norm_num [initState]⟩
  · intro img
    unfold runOps
    rw [List.foldl_append]
    exact addImageToHistory_cursor_last _ _

/-! ### Geometry normalizer (services/geminiService.ts)

Pixel geometry is computed with JS floating-point arithmetic; it is
modelled here with exact rationals. Only the width/height bookkeeping of
the canvas operations is relevant to the claims, so an image is modelled
by its dimensions. -/

/-- An image reduced to its pixel dimensions. -/
structure ImageDims where
  width : ℚ
  height : ℚ
deriving Repr, DecidableEq

/-- The content-area geometry computed by `resizeImage` (geminiService.ts
lines 85-98): scaled content dimensions of a `w × h` image inside the
`S × S` square, and the centering offsets. Result is
`((newWidth, newHeight), (offsetX, offsetY))`. -/
def resizeGeometry (w h S : ℚ) : (ℚ × ℚ) × (ℚ × ℚ) :=
  let aspectRatio := w / h
  let wh := if 1 < aspectRatio then (S, S / aspectRatio) else (S * aspectRatio, S)
  (wh, ((S - wh.1) / 2, (S - wh.2) / 2))

/-- Output dimensions of `resizeImage` (padToSquare): the canvas is set
to `targetDimension × targetDimension` (geminiService.ts lines 70-72),
whatever the source image dimensions are. -/
def resizeImageDims (img : ImageDims) (S : ℚ) : ImageDims := ⟨S, S⟩

/-- Output dimensions of `cropToOriginalAspectRatio` (geminiService.ts
lines 20-38): the content rectangle is recomputed from
`(originalWidth, originalHeight, targetDimension)` and the output canvas
is set to exactly the content dimensions. The input image is only the
source of pixels; the output dimensions do not depend on it. -/
def cropToOriginalAspectRatioDims (img : ImageDims) (origW origH S : ℚ) : ImageDims :=
  let aspectRatio := origW / origH
  let c := if 1 < aspectRatio then (S, S / aspectRatio) else (S * aspectRatio, S)
  ⟨c.1, c.2⟩

/-- The absolute marker coordinate computed inline in `redesignRoom`
(geminiService.ts lines 230-251): recompute the content-area geometry
and map the relative drop point by `offset + relative * contentDimension`. -/
def markerCoords (rx ry origW origH S : ℚ) : ℚ × ℚ :=
  let aspectRatio := origW / origH
  let content := if 1 < aspectRatio then (S, S / aspectRatio) else (S * aspectRatio, S)
  let xOffset := (S - content.1) / 2
  let yOffset := (S - content.2) / 2
  (xOffset + rx * content.1, yOffset + ry * content.2)

/-- C5: cropping the padded square back with the original dimensions
yields an image whose aspect ratio is exactly the original one (the
floating-point computation is modelled with exact rationals, so the
tolerance is zero). -/
theorem claim_C5_geometry_roundtrip (img : ImageDims) (origW origH S : ℚ)
    (hw : 0 < origW) (hh : 0 < origH) (hS : 0 < S) :
    (cropToOriginalAspectRatioDims (resizeImageDims img S) origW origH S).width
      / (cropToOriginalAspectRatioDims (resizeImageDims img S) origW origH S).height
      = origW / origH := by
  have hw0 : origW ≠ 0 := ne_of_gt hw
  have hh0 : origH ≠ 0 := ne_of_gt hh
  have hS0 : S ≠ 0 := ne_of_gt hS
  unfold cropToOriginalAspectRatioDims
  by_cases hA : 1 < origW / origH
  · simp only [if_pos hA]
    have ha0 : origW / origH ≠ 0 := by positivity
    field_simp
    ring
  · simp only [if_neg hA]
    field_simp
    ring

/-- Witness for C5 at the spec's scenario dimensions `1600 × 900`, `S = 1024`. -/
theorem claim_C5_geometry_roundtrip_witness :
    (cropToOriginalAspectRatioDims (resizeImageDims ⟨1600, 900⟩ 1024) 1600 900 1024).width
      / (cropToOriginalAspectRatioDims (resizeImageDims ⟨1600, 900⟩ 1024) 1600 900 1024).height
      = 1600 / 900 :=
  claim_C5_geometry_roundtrip ⟨1600, 900⟩ 1600 900 1024
    (by norm_num) (by norm_num) (by norm_num)

/-- C6: the marker coordinate equals `offset + relative * contentDimension`
with exactly the content-area geometry of `resizeImage` (padToSquare);
for a `1600 × 900` original and `S = 1024` the content is `1024 × 576`
with `224`px top/bottom margins, and relative `(0.1, 0.1)` maps to
absolute `(102.4, 281.6)` (= `(512/5, 1408/5)`). -/
theorem claim_C6_marker_mapping (rx ry origW origH S : ℚ)
    (hx1 : 0 ≤ rx) (hx2 : rx ≤ 1) (hy1 : 0 ≤ ry) (hy2 : ry ≤ 1) :
    (markerCoords rx ry origW origH S
        = ((resizeGeometry origW origH S).2.1 + rx * (resizeGeometry origW origH S).1.1,
           (resizeGeometry origW origH S).2.2 + ry * (resizeGeometry origW origH S).1.2))
    ∧ resizeGeometry 1600 900 1024 = ((1024, 576), (0, 224))
    ∧ markerCoords (1/10) (1/10) 1600 900 1024 = (512/5, 1408/5) := by
  refine ⟨?_, ?_, ?_⟩
  · unfold markerCoords resizeGeometry
    by_cases hA : 1 < origW / origH
    · simp only [if_pos hA]
    · simp only [if_neg hA]
  · unfold resizeGeometry
    norm_num
  · unfold markerCoords
    norm_num

/-- Witness for C6 at the spec's scenario: relative `(0.1, 0.1)` on a
`1600 × 900` original padded to `1024`. -/
theorem claim_C6_marker_mapping_witness :
    (markerCoords (1/10) (1/10) 1600 900 1024
        = ((resizeGeometry 1600 900 1024).2.1 + (1/10) * (resizeGeometry 1600 900 1024).1.1,
           (resizeGeometry 1600 900 1024).2.2 + (1/10) * (resizeGeometry 1600 900 1024).1.2))
    ∧ resizeGeometry 1600 900 1024 = ((1024, 576), (0, 224))
    ∧ markerCoords (1/10) (1/10) 1600 900 1024 = (512/5, 1408/5) :=
  claim_C6_marker_mapping (1/10) (1/10) 1600 900 1024
    (by norm_num) (by norm_num) (by norm_num) (by norm_num)

/-! ### C8: dimension validation

The source performs no validation of widths, heights or square sizes:
`resizeImage` and `cropToOriginalAspectRatio` can only fail at their
canvas/decoding environment boundaries (file reader error, image load
error, null 2d context, failed blob encoding) — none of these branches
inspects the dimensions, and no `InvalidDimension` error exists anywhere
in the code. -/

/-- Outcome flags of the canvas environment used by the geometry helpers:
whether `getContext('2d')` returns a context, whether `toBlob`/encoding
succeeds, and whether the image decodes (`img.onload` vs `img.onerror`). -/
structure CanvasEnv where
  contextOk : Bool
  encodeOk : Bool
  imageLoadOk : Bool
deriving Repr, DecidableEq

/-- The canvas environment in which every canvas operation succeeds. -/
def okEnv : CanvasEnv := ⟨true, true, true⟩

/-- `cropToOriginalAspectRatio` with its failure points (geminiService.ts
lines 10-53): image load error and null context are the only rejections;
the dimensions are never checked. -/
def cropToOriginalAspectRatioRun (env : CanvasEnv) (origW origH S : ℚ) :
    Except String ImageDims :=
  if env.imageLoadOk = false then .error "Image load error during cropping"
  else if env.contextOk = false then .error "Could not get canvas context for cropping."
  else .ok (cropToOriginalAspectRatioDims ⟨S, S⟩ origW origH S)

/-- `resizeImage` with its failure points (geminiService.ts lines 59-118):
file reader / image load error, null context, and failed blob encoding
are the only rejections; the dimensions are never checked. -/
def resizeImageRun (env : CanvasEnv) (img : ImageDims) (S : ℚ) :
    Except String ImageDims :=
  if env.imageLoadOk = false then .error "Image load error"
  else if env.contextOk = false then .error "Could not get canvas context."
  else if env.encodeOk = false then .error "Canvas to Blob conversion failed."
  else .ok (resizeImageDims img S)

/-- C8 counterexample: a call of `cropToOriginalAspectRatio` with a zero
original width (and of `resizeImage` with a zero-width image) is not
rejected; both succeed and produce a (degenerate) output image. -/
theorem claim_C8_counterexample :
    cropToOriginalAspectRatioRun okEnv 0 900 1024 = .ok ⟨0, 1024⟩
    ∧ resizeImageRun okEnv ⟨0, 900⟩ 1024 = .ok ⟨1024, 1024⟩ := by
  constructor
  · unfold cropToOriginalAspectRatioRun okEnv cropToOriginalAspectRatioDims
    norm_num
  · unfold resizeImageRun okEnv resizeImageDims
    norm_num

/-- C8 amended: the geometry operations perform no dimension validation —
whenever the canvas environment succeeds, calls with zero or negative
width, height, or square size are still accepted and produce an output
image; no `InvalidDimension` rejection exists. -/
theorem claim_C8_no_dimension_validation (img : ImageDims) (origW origH S : ℚ)
    (hbad : origW ≤ 0 ∨ origH ≤ 0 ∨ S ≤ 0) :
    (cropToOriginalAspectRatioRun okEnv origW origH S).isOk = true
    ∧ (resizeImageRun okEnv img S).isOk = true := by
  constructor
  · unfold cropToOriginalAspectRatioRun okEnv
    rfl
  · unfold resizeImageRun okEnv
    rfl

/-- Witness for the amended C8 at a zero original width. -/
theorem claim_C8_no_dimension_validation_witness :
    (cropToOriginalAspectRatioRun okEnv 0 900 1024).isOk = true
    ∧ (resizeImageRun okEnv ⟨0, 900⟩ 1024).isOk = true :=
  claim_C8_no_dimension_validation ⟨0, 900⟩ 0 900 1024 (by norm_num)

/-! ### Base64 and data URLs

The persistence layer turns each binary image into a `data:` URL through
the browser primitives `FileReader.readAsDataURL` (see the identical
helper `fileToDataUrl`, geminiService.ts lines 189-196) and `atob`
(inside `dataURLtoFile`, unnamed source part_000 lines 16-30). Both are
standard base64; they are modelled here over byte lists. The model of
`atob` is strict about padding and ignores the whitespace-stripping of
forgiving-base64, which never arises for URLs this code produces. -/

/-- The standard base64 alphabet. -/
def b64Alphabet : List Char :=
  "ABCDEFGHIJKLMNOPQRSTUVWXYZabcdefghijklmnopqrstuvwxyz0123456789+/".data

/-- Base64 digit for a sextet value. -/
def encChar (n : Nat) : Char := b64Alphabet.getD (n % 64) 'A'

/-- Sextet value of a base64 digit, if any. -/
def decChar (c : Char) : Option Nat := b64Alphabet.findIdx? (fun x => x == c)

/-- Base64 encoding of a byte list, with `=` padding (the output of
`btoa` / `readAsDataURL` for those bytes). -/
def encodeB64 : List Nat → List Char
  | [] => []
  | [b1] => [encChar (b1 / 4), encChar (b1 % 4 * 16), '=', '=']
  | [b1, b2] =>
      [encChar (b1 / 4), encChar (b1 % 4 * 16 + b2 / 16), encChar (b2 % 16 * 4), '=']
  | b1 :: b2 :: b3 :: rest =>
      encChar (b1 / 4) :: encChar (b1 % 4 * 16 + b2 / 16)
        :: encChar (b2 % 16 * 4 + b3 / 64) :: encChar (b3 % 64) :: encodeB64 rest

/-- Base64 decoding (`atob`): `none` models the `InvalidCharacterError`
thrown on a character outside the alphabet, misplaced padding, or a
length remainder of 1. -/
def decodeB64 : List Char → Option (List Nat)
  | [] => some []
  | [c1, c2] =>
      match decChar c1, decChar c2 with
      | some s0, some s1 => some [s0 * 4 + s1 / 16]
      | _, _ => none
  | [c1, c2, c3] =>
      match decChar c1, decChar c2, decChar c3 with
      | some s0, some s1, some s2 => some [s0 * 4 + s1 / 16, s1 % 16 * 16 + s2 / 4]
      | _, _, _ => none
  | c1 :: c2 :: c3 :: c4 :: rest =>
      if c3 = '=' then
        if c4 = '=' ∧ rest = [] then
          match decChar c1, decChar c2 with
          | some s0, some s1 => some [s0 * 4 + s1 / 16]
          | _, _ => none
        else none
      else if c4 = '=' then
        if rest = [] then
          match decChar c1, decChar c2, decChar c3 with
          | some s0, some s1, some s2 => some [s0 * 4 + s1 / 16, s1 % 16 * 16 + s2 / 4]
          | _, _, _ => none
        else none
      else
        match decChar c1, decChar c2, decChar c3, decChar c4, decodeB64 rest with
        | some s0, some s1, some s2, some s3, some bs =>
            some ((s0 * 4 + s1 / 16) :: (s1 % 16 * 16 + s2 / 4) :: (s2 % 4 * 64 + s3) :: bs)
        | _, _, _, _, _ => none
  | _ => none

/-- Every encoded character is an alphabet character. -/
theorem encChar_mem (n : Nat) : encChar n ∈ b64Alphabet := by
  unfold encChar
  have hlen : b64Alphabet.length = 64 := by decide
  have h : n % 64 < b64Alphabet.length := by
    rw [hlen]; exact Nat.mod_lt _ (by norm_num)
  rw [List.getD_eq_getElem _ _ h]
  exact List.getElem_mem h

/-- The padding character is not an alphabet character. -/
theorem eq_char_not_in_alphabet : '=' ∉ b64Alphabet := by decide

/-- The comma is not an alphabet character. -/
theorem comma_not_in_alphabet : ',' ∉ b64Alphabet := by decide

/-- An encoded character is never the padding character. -/
theorem encChar_ne_eq_char (n : Nat) : encChar n ≠ '=' := fun h =>
  eq_char_not_in_alphabet (h ▸ encChar_mem n)

/-- An encoded character is never a comma. -/
theorem encChar_ne_comma (n : Nat) : encChar n ≠ ',' := fun h =>
  comma_not_in_alphabet (h ▸ encChar_mem n)

/-- A comma never occurs in a base64 encoding. -/
theorem comma_not_mem_encodeB64 (l : List Nat) : ',' ∉ encodeB64 l := by
  induction l using encodeB64.induct with
  | case1 => simp [encodeB64]
  | case2 b1 => simp [encodeB64, Ne.symm (encChar_ne_comma _)]
  | case3 b1 b2 => simp [encodeB64, Ne.symm (encChar_ne_comma _)]
  | case4 b1 b2 b3 rest ih =>
      simp [encodeB64, Ne.symm (encChar_ne_comma _), ih]

/-- Decoding inverts encoding on sextet values. -/
theorem decChar_encChar_fin : ∀ n : Fin 64, decChar (encChar n.val) = some n.val := by
  decide

/-- Decoding inverts encoding on sextet values (Nat form). -/
theorem decChar_encChar (n : Nat) (h : n < 64) : decChar (encChar n) = some n :=
  decChar_encChar_fin ⟨n, h⟩

/-- Base64 decoding inverts encoding on byte lists. -/
theorem decodeB64_encodeB64 (l : List Nat) (h : ∀ b ∈ l, b < 256) :
    decodeB64 (encodeB64 l) = some l := by
  induction l using encodeB64.induct with
  | case1 => rfl
  | case2 b1 =>
      have hb1 : b1 < 256 := h b1 (by simp)
      have e0 := decChar_encChar (b1 / 4) (by omega)
      have e1 := decChar_encChar (b1 % 4 * 16) (by omega)
      simp only [encodeB64, decodeB64, e0, e1, if_pos rfl, and_self, reduceIte]
      have : b1 / 4 * 4 + b1 % 4 * 16 / 16 = b1 := by omega
      rw [this]
  | case3 b1 b2 =>
      have hb1 : b1 < 256 := h b1 (by simp)
      have hb2 : b2 < 256 := h b2 (by simp)
      have e0 := decChar_encChar (b1 / 4) (by omega)
      have e1 := decChar_encChar (b1 % 4 * 16 + b2 / 16) (by omega)
      have e2 := decChar_encChar (b2 % 16 * 4) (by omega)
      simp only [encodeB64, decodeB64, e0, e1, e2,
        if_neg (encChar_ne_eq_char (b2 % 16 * 4)), if_pos rfl, reduceIte]
      have h1 : b1 / 4 * 4 + (b1 % 4 * 16 + b2 / 16) / 16 = b1 := by omega
      have h2 : (b1 % 4 * 16 + b2 / 16) % 16 * 16 + b2 % 16 * 4 / 4 = b2 := by omega
      rw [h1, h2]
  | case4 b1 b2 b3 rest ih =>
      have hb1 : b1 < 256 := h b1 (by simp)
      have hb2 : b2 < 256 := h b2 (by simp)
      have hb3 : b3 < 256 := h b3 (by simp)
      have hrest : ∀ b ∈ rest, b < 256 := fun b hb => h b (by simp [hb])
      have e0 := decChar_encChar (b1 / 4) (by omega)
      have e1 := decChar_encChar (b1 % 4 * 16 + b2 / 16) (by omega)
      have e2 := decChar_encChar (b2 % 16 * 4 + b3 / 64) (by omega)
      have e3 := decChar_encChar (b3 % 64) (by omega)
      simp only [encodeB64, decodeB64, e0, e1, e2, e3, ih hrest,
        if_neg (encChar_ne_eq_char (b2 % 16 * 4 + b3 / 64)),
        if_neg (encChar_ne_eq_char (b3 % 64))]
      have h1 : b1 / 4 * 4 + (b1 % 4 * 16 + b2 / 16) / 16 = b1 := by omega
      have h2 : (b1 % 4 * 16 + b2 / 16) % 16 * 16 + (b2 % 16 * 4 + b3 / 64) / 4 = b2 := by
        omega
      have h3 : (b2 % 16 * 4 + b3 / 64) % 4 * 64 + b3 % 64 = b3 := by omega
      rw [h1, h2, h3]

/-! ### Data URLs and the serialization layer (storageService.ts) -/

/-- JavaScript `String.prototype.split` with a one-character separator. -/
def splitOn (sep : Char) : List Char → List (List Char)
  | [] => [[]]
  | c :: rest =>
      match splitOn sep rest with
      | [] => [[]]
      | h :: t => if c = sep then [] :: h :: t else (c :: h) :: t

/-- The lazy regex match of `dataurl.split(',')[0].match(/:(.*?);/)` in
`dataURLtoFile` (part_000 lines 19-22): find a colon that is followed by
a later semicolon, and capture the characters strictly between the colon
and the first such semicolon. -/
def matchMime : List Char → Option (List Char)
  | [] => none
  | c :: rest =>
      if c = ':' then
        if rest.dropWhile (fun x => x != ';') = [] then matchMime rest
        else some (rest.takeWhile (fun x => x != ';'))
      else matchMime rest

/-- Model of `FileReader.readAsDataURL` (the `fileToDataUrl` helper of
utils/fileUtils.ts, identical to geminiService.ts lines 189-196): a
self-describing text encoding of the file, `data:<mime>;base64,<payload>`. -/
def fileToDataUrl (f : FileData) : List Char :=
  "data:".data ++ f.type.data ++ ";base64,".data ++ encodeB64 f.data

/-- `dataURLtoFile` (part_000 lines 16-30): split at commas, read the MIME
type out of the header with the lazy regex, `atob`-decode the payload
(the segment between the first and second comma), and build a `File`
with the given name. Thrown errors are modelled with `Except.error`. -/
def dataURLtoFile (dataurl : List Char) (filename : String) : Except String FileData :=
  match splitOn ',' dataurl with
  | a0 :: a1 :: _ =>
      match matchMime a0 with
      | some m =>
          if m = [] then .error "Could not parse MIME type from data URL"
          else
            match decodeB64 a1 with
            | some bytes => .ok ⟨filename, String.mk m, bytes⟩
            | none => .error "InvalidCharacterError"
      | none => .error "Could not parse MIME type from data URL"
  | _ => .error "Invalid data URL"

/-- `SerializableFile` from types.ts (part_002): name, type, data URL. -/
structure SerializableFile where
  name : String
  type : String
  dataUrl : List Char
deriving Repr, DecidableEq

/-- `fileToSerializable` (storageService.ts lines 13-16). -/
def fileToSerializable (f : FileData) : SerializableFile :=
  ⟨f.name, f.type, fileToDataUrl f⟩

/-- `serializableToFile` (storageService.ts lines 18-20). -/
def serializableToFile (sf : SerializableFile) : Except String FileData :=
  dataURLtoFile sf.dataUrl sf.name

/-- `SerializableDesignSession` from types.ts (part_002 lines 31-39):
note that the history cursor is not among its fields. -/
structure SerializableDesignSession where
  id : String
  name : String
  timestamp : Int
  thumbnail : String
  sceneImage : SerializableFile
  originalDimensions : Dimensions
  generations : List SerializableFile
deriving Repr, DecidableEq

/-- `sessionToSerializable` (storageService.ts lines 22-37). -/
def sessionToSerializable (s : DesignSession) : SerializableDesignSession :=
  ⟨s.id, s.name, s.timestamp, s.thumbnail, fileToSerializable s.sceneImage,
   s.originalDimensions, s.generations.map fileToSerializable⟩

/-- JavaScript `Array.prototype.map` over a throwing function: the first
thrown error propagates to the caller. -/
def mapE {α β : Type} (g : α → Except String β) : List α → Except String (List β)
  | [] => .ok []
  | x :: xs => do
      let y ← g x
      let ys ← mapE g xs
      .ok (y :: ys)

/-- `serializableToSession` (storageService.ts lines 39-49). -/
def serializableToSession (ss : SerializableDesignSession) :
    Except String DesignSession := do
  let scene ← serializableToFile ss.sceneImage
  let gens ← mapE serializableToFile ss.generations
  .ok ⟨ss.id, ss.name, ss.timestamp, ss.thumbnail, scene, ss.originalDimensions, gens⟩

/-- A usable MIME type: nonempty, no semicolon, no comma. Browser MIME
types (`image/jpeg`, `image/png`, ...) all satisfy this. -/
def ValidMime (t : String) : Prop :=
  t.data ≠ [] ∧ ';' ∉ t.data ∧ ',' ∉ t.data

/-- A well-formed in-memory file: usable MIME type and byte-valued data. -/
def ValidFile (f : FileData) : Prop :=
  ValidMime f.type ∧ ∀ b ∈ f.data, b < 256

/-- A well-formed in-memory session: all its images are well-formed. -/
def ValidSession (s : DesignSession) : Prop :=
  ValidFile s.sceneImage ∧ ∀ g ∈ s.generations, ValidFile g

/-! ### Round-trip lemmas for the serialization layer -/

/-- Splitting a separator-free list yields one segment. -/
theorem splitOn_not_mem (sep : Char) (l : List Char) (h : sep ∉ l) :
    splitOn sep l = [l] := by
  induction l with
  | nil => rfl
  | cons c rest ih =>
      have hc : c ≠ sep := fun e => h (e ▸ List.mem_cons_self c rest)
      have hr : sep ∉ rest := fun m => h (List.mem_cons_of_mem _ m)
      simp only [splitOn, ih hr]
      rw [if_neg hc]

/-- Splitting never yields an empty list of segments. -/
theorem splitOn_ne_nil (sep : Char) (l : List Char) : splitOn sep l ≠ [] := by
  cases l with
  | nil => simp [splitOn]
  | cons c rest =>
      simp only [splitOn]
      cases hr : splitOn sep rest with
      | nil => simp
      | cons hh tt => by_cases hc : c = sep <;> simp [hc]

/-- Splitting at the first separator occurrence. -/
theorem splitOn_append (sep : Char) (l1 l2 : List Char) (h : sep ∉ l1) :
    splitOn sep (l1 ++ sep :: l2) = l1 :: splitOn sep l2 := by
  induction l1 with
  | nil =>
      show splitOn sep (sep :: l2) = [] :: splitOn sep l2
      simp only [splitOn]
      cases hr : splitOn sep l2 with
      | nil => exact absurd hr (splitOn_ne_nil sep l2)
      | cons hh tt => simp
  | cons c rest ih =>
      have hc : c ≠ sep := fun e => h (e ▸ List.mem_cons_self c rest)
      have hr : sep ∉ rest := fun m => h (List.mem_cons_of_mem _ m)
      show splitOn sep (c :: (rest ++ sep :: l2)) = (c :: rest) :: splitOn sep l2
      simp only [splitOn]
      rw [ih hr]
      simp [hc]

/-- Taking up to the first semicolon of `t ++ ';' :: l2` yields `t`. -/
theorem takeWhile_semi (t l2 : List Char) (h : ';' ∉ t) :
    (t ++ ';' :: l2).takeWhile (fun x => x != ';') = t := by
  induction t with
  | nil => simp [List.takeWhile]
  | cons c rest ih =>
      have hc : c ≠ ';' := fun e => h (e ▸ List.mem_cons_self c rest)
      have hr : ';' ∉ rest := fun m => h (List.mem_cons_of_mem _ m)
      simp only [List.cons_append, List.takeWhile_cons, bne_iff_ne, ne_eq, hc,
        not_false_eq_true, reduceIte, ih hr]

/-- Dropping up to the first semicolon of `t ++ ';' :: l2`. -/
theorem dropWhile_semi (t l2 : List Char) (h : ';' ∉ t) :
    (t ++ ';' :: l2).dropWhile (fun x => x != ';') = ';' :: l2 := by
  induction t with
  | nil => simp [List.dropWhile]
  | cons c rest ih =>
      have hc : c ≠ ';' := fun e => h (e ▸ List.mem_cons_self c rest)
      have hr : ';' ∉ rest := fun m => h (List.mem_cons_of_mem _ m)
      simp only [List.cons_append, List.dropWhile_cons, bne_iff_ne, ne_eq, hc,
        not_false_eq_true, reduceIte, ih hr]

/-- The MIME match on the header `data:<type>;base64` recovers the type. -/
theorem matchMime_header (t : List Char) (hsemi : ';' ∉ t) :
    matchMime ("data:".data ++ (t ++ ";base64".data)) = some t := by
  have hb : ";base64".data = ';' :: "base64".data := rfl
  have hdata : "data:".data = ['d', 'a', 't', 'a', ':'] := rfl
  rw [hdata, hb]
  show matchMime ('d' :: 'a' :: 't' :: 'a' :: ':' :: (t ++ ';' :: "base64".data)) = some t
  simp only [matchMime, reduceIte, Char.reduceEq]
  rw [dropWhile_semi t _ hsemi, takeWhile_semi t _ hsemi]
  simp

/-- String reconstruction from its character list. -/
theorem string_mk_data (s : String) : String.mk s.data = s := by
  cases s
  rfl

/-- A file with a usable MIME type and byte data survives the
serialize/deserialize round trip unchanged. -/
theorem serializableToFile_roundtrip (f : FileData) (h : ValidFile f) :
    serializableToFile (fileToSerializable f) = .ok f := by
  obtain ⟨⟨hne, hsemi, hcomma⟩, hbytes⟩ := h
  unfold serializableToFile fileToSerializable dataURLtoFile fileToDataUrl
  have hsplit :
      splitOn ',' ("data:".data ++ f.type.data ++ ";base64,".data ++ encodeB64 f.data)
        = ("data:".data ++ (f.type.data ++ ";base64".data)) :: [encodeB64 f.data] := by
    have harr :
        "data:".data ++ f.type.data ++ ";base64,".data ++ encodeB64 f.data
          = ("data:".data ++ (f.type.data ++ ";base64".data)) ++ ',' :: encodeB64 f.data := by
      simp only [List.append_assoc]
      rfl
    rw [harr, splitOn_append, splitOn_not_mem]
    · exact comma_not_mem_encodeB64 f.data
    · intro hmem
      rcases List.mem_append.mp hmem with hmem1 | hmem2
      · exact absurd hmem1 (by decide)
      · rcases List.mem_append.mp hmem2 with hmem3 | hmem4
        · exact hcomma hmem3
        · exact absurd hmem4 (by decide)
  rw [hsplit]
  dsimp only
  rw [matchMime_header f.type.data hsemi]
  simp only [hne, reduceIte, decodeB64_encodeB64 f.data hbytes, string_mk_data]

/-- `mapE` over already-serialized well-formed files round-trips. -/
theorem mapE_map_roundtrip (l : List FileData) (h : ∀ g ∈ l, ValidFile g) :
    mapE serializableToFile (l.map fileToSerializable) = .ok l := by
  induction l with
  | nil => rfl
  | cons x xs ih =>
      have hx := serializableToFile_roundtrip x (h x (List.mem_cons_self x xs))
      have hxs := ih fun y hy => h y (List.mem_cons_of_mem _ hy)
      simp only [List.map_cons, mapE, hx, hxs]
      rfl

/-- C3: deserializing the serialization of any well-formed project (any
number of generations, zero included) reproduces it exactly — in
particular with identical id, name, timestamp, originalDimensions, and
byte-identical scene image and generation payloads. -/
theorem claim_C3_serialization_roundtrip (s : DesignSession) (h : ValidSession s) :
    serializableToSession (sessionToSerializable s) = .ok s := by
  obtain ⟨hscene, hgens⟩ := h
  unfold serializableToSession sessionToSerializable
  dsimp only
  rw [serializableToFile_roundtrip s.sceneImage hscene, mapE_map_roundtrip s.generations hgens]
  rfl

/-- A concrete scene image for witnesses. -/
def fileScene : FileData := ⟨"scene.jpeg", "image/jpeg", [0, 1, 2, 255]⟩

/-- A concrete one-generation project for witnesses. -/
def sessionEx : DesignSession :=
  ⟨"1700000000000", "Design 1", 1700000000000, "thumb", fileScene, ⟨1600, 900⟩, [imgA]⟩

/-- A concrete zero-generation project for witnesses. -/
def sessionEx0 : DesignSession :=
  ⟨"1700000000001", "Design 2", 1700000000001, "thumb2", fileScene, ⟨900, 1600⟩, []⟩

instance (t : String) : Decidable (ValidMime t) := by
  unfold ValidMime; infer_instance

instance (f : FileData) : Decidable (ValidFile f) := by
  unfold ValidFile; infer_instance

instance (s : DesignSession) : Decidable (ValidSession s) := by
  unfold ValidSession; infer_instance

/-- Witness for C3 on a concrete one-generation project. -/
theorem claim_C3_serialization_roundtrip_witness :
    serializableToSession (sessionToSerializable sessionEx) = .ok sessionEx :=
  claim_C3_serialization_roundtrip sessionEx (by decide)

/-! ### Persistence boundary (storageService.ts public API) -/

/-- Result of a load: the sessions returned, the storage slot afterwards,
and whether a failure was logged. -/
structure LoadResult where
  sessions : List DesignSession
  stored : Option String
  logged : Bool
deriving Repr, DecidableEq

/-- `loadSessionsFromLocalStorage` (storageService.ts lines 70-84).
`stored` is the value under the fixed storage key, `parseJson` abstracts
the external `JSON.parse` (an exception is `Except.error`). On any
failure while parsing or converting, the catch block logs, removes the
stored entry, and the function returns the empty list. -/
def loadSessionsFromLocalStorage
    (parseJson : String → Except String (List SerializableDesignSession))
    (stored : Option String) : LoadResult :=
  match stored with
  | none => ⟨[], none, false⟩
  | some blob =>
      match parseJson blob with
      | .error _ => ⟨[], none, true⟩
      | .ok parsed =>
          match mapE serializableToSession parsed with
          | .error _ => ⟨[], none, true⟩
          | .ok sessions => ⟨sessions, some blob, false⟩

/-- `saveSessionsToLocalStorage` (storageService.ts lines 57-64): the
whole body (serializing every session and the storage write) sits in a
try/catch whose catch only logs. `bodyOutcome` is the body's outcome;
the result is `(an exception escaped, a failure was logged)`. -/
def saveSessionsToLocalStorage (bodyOutcome : Except String Unit) : Bool × Bool :=
  match bodyOutcome with
  | .ok _ => (false, false)
  | .error _ => (false, true)

/-- C4: when the stored blob is present but fails to parse (or any entry
fails to decode), loading returns the empty collection, discards the
stored entry, and logs; and for every outcome of its body the save
operation never lets an exception escape. -/
theorem claim_C4_corrupt_store_recovery
    (parseJson : String → Except String (List SerializableDesignSession))
    (blob : String)
    (hfail : ∀ parsed, parseJson blob = .ok parsed →
      ∃ e, mapE serializableToSession parsed = .error e) :
    loadSessionsFromLocalStorage parseJson (some blob) = ⟨[], none, true⟩
    ∧ ∀ r : Except String Unit, (saveSessionsToLocalStorage r).1 = false := by
  constructor
  · unfold loadSessionsFromLocalStorage
    dsimp only
    cases hp : parseJson blob with
    | error e => rfl
    | ok parsed =>
        obtain ⟨e, he⟩ := hfail parsed hp
        dsimp only
        rw [he]
  · intro r
    cases r <;> rfl

/-- Witness for C4 on a blob whose parse throws a syntax error. -/
theorem claim_C4_corrupt_store_recovery_witness :
    loadSessionsFromLocalStorage (fun _ => .error "SyntaxError") (some "corrupt")
      = ⟨[], none, true⟩
    ∧ ∀ r : Except String Unit, (saveSessionsToLocalStorage r).1 = false :=
  claim_C4_corrupt_store_recovery (fun _ => .error "SyntaxError") "corrupt"
    (fun _ hp => Except.noConfusion hp)

/-! ### Session manager (App.tsx) -/

/-- `clearWorkingState` (App.tsx lines 117-129): reset every working-state
field; the session collection and the active pointer are untouched. -/
def clearWorkingState (s : AppState) : AppState :=
  { s with sceneImage := none, productImage := none, sketchedImage := none,
           history := [], historyIndex := -1, prompt := "", error := none,
           originalDimensions := none }

/-- `handleNewProject` (App.tsx lines 131-134). -/
def handleNewProject (s : AppState) : AppState :=
  { clearWorkingState s with activeSessionId := none }

/-- The body of `handleSelectSession` (App.tsx lines 136-146), looking the
session up in an explicitly given collection: the React handler closes
over the collection current when it was created, which matters when it is
invoked from inside `handleDeleteSession`. On a hit it loads the
session's data and puts the cursor on the last generation; on a miss it
is a no-op. -/
def handleSelectSessionFrom (sessionsList : List DesignSession) (s : AppState)
    (sessionId : String) : AppState :=
  match sessionsList.find? (fun x => x.id == sessionId) with
  | some session =>
      { clearWorkingState s with
          sceneImage := some session.sceneImage
        , originalDimensions := some session.originalDimensions
        , history := session.generations
        , historyIndex := (session.generations.length : Int) - 1
        , activeSessionId := some session.id }
  | none => s

/-- `handleSelectSession` (App.tsx lines 136-146). -/
def handleSelectSession (s : AppState) (sessionId : String) : AppState :=
  handleSelectSessionFrom s.sessions s sessionId

/-- `handleDeleteSession` (App.tsx lines 148-158): drop the session from
the collection; when it was the active one, select the first remaining
session (the lookup runs against the pre-deletion collection captured by
the closure) or fall back to a fresh empty project. -/
def handleDeleteSession (s : AppState) (sessionId : String) : AppState :=
  let s1 := { s with sessions := s.sessions.filter (fun x => x.id != sessionId) }
  if s.activeSessionId = some sessionId then
    match s.sessions.filter (fun x => x.id != sessionId) with
    | r :: _ => handleSelectSessionFrom s.sessions s1 r.id
    | [] => handleNewProject s1
  else s1

/-- Component state plus the persisted storage slot, modelled at the
parsed level (the JSON text in localStorage encodes exactly this list). -/
structure SysState where
  app : AppState
  store : Option (List SerializableDesignSession)
deriving Repr, DecidableEq

/-- The save effect (App.tsx lines 110-114): after the session collection
changes it is persisted — but only when it is nonempty
(`if (sessions.length > 0) saveSessionsToLocalStorage(sessions)`). -/
def saveEffect (sys : SysState) : SysState :=
  if 0 < sys.app.sessions.length then
    { sys with store := some (sys.app.sessions.map sessionToSerializable) }
  else sys

/-- A deletion followed by the save effect it triggers. -/
def deleteSessionAndPersist (sys : SysState) (sessionId : String) : SysState :=
  saveEffect { sys with app := handleDeleteSession sys.app sessionId }

/-- Selecting a session never changes the collection. -/
theorem handleSelectSessionFrom_sessions (L : List DesignSession) (s : AppState)
    (sid : String) : (handleSelectSessionFrom L s sid).sessions = s.sessions := by
  unfold handleSelectSessionFrom clearWorkingState
  cases L.find? (fun x => x.id == sid) <;> rfl

/-- Deletion filters the collection, in every branch. -/
theorem handleDeleteSession_sessions (s : AppState) (sid : String) :
    (handleDeleteSession s sid).sessions
      = s.sessions.filter (fun x => x.id != sid) := by
  unfold handleDeleteSession
  by_cases hA : s.activeSessionId = some sid
  · rw [if_pos hA]
    cases hF : s.sessions.filter (fun x => x.id != sid) with
    | nil => rfl
    | cons r rest => rw [handleSelectSessionFrom_sessions]
  · rw [if_neg hA]

/-- The save effect never changes the component state. -/
theorem saveEffect_app (sys : SysState) : (saveEffect sys).app = sys.app := by
  unfold saveEffect
  split <;> rfl

/-- With a nonempty collection the save effect persists it. -/
theorem saveEffect_store_of_ne_nil (sys : SysState) (h : sys.app.sessions ≠ []) :
    (saveEffect sys).store = some (sys.app.sessions.map sessionToSerializable) := by
  unfold saveEffect
  rw [if_pos (List.length_pos.mpr h)]

/-- With an empty collection the save effect leaves the store untouched. -/
theorem saveEffect_store_of_nil (sys : SysState) (h : sys.app.sessions = []) :
    (saveEffect sys).store = sys.store := by
  unfold saveEffect
  rw [h, if_neg (by simp)]

/-- The head of a filtered collection is found in the original one. -/
theorem find?_head_of_filter (L : List DesignSession) (sid : String)
    (r : DesignSession) (rest : List DesignSession)
    (hF : L.filter (fun x => x.id != sid) = r :: rest) :
    ∃ sess, L.find? (fun x => x.id == r.id) = some sess ∧ sess.id = r.id := by
  have hr : r ∈ L := List.mem_of_mem_filter (hF ▸ List.mem_cons_self r rest)
  have hsome : (L.find? (fun x => x.id == r.id)).isSome := by
    rw [List.find?_isSome]
    exact ⟨r, hr, by simp⟩
  obtain ⟨sess, hsess⟩ := Option.isSome_iff_exists.mp hsome
  refine ⟨sess, hsess, ?_⟩
  have := List.find?_some hsess
  simpa using this

/-- A hit in `handleSelectSessionFrom` activates the found session. -/
theorem handleSelectSessionFrom_active (L : List DesignSession) (s : AppState)
    (sid : String) (sess : DesignSession)
    (h : L.find? (fun x => x.id == sid) = some sess) :
    (handleSelectSessionFrom L s sid).activeSessionId = some sess.id := by
  unfold handleSelectSessionFrom
  rw [h]

/-- A concrete component state with one active session, for witnesses and
counterexamples. -/
def appEx : AppState :=
  { initState with
      sessions := [sessionEx]
    , activeSessionId := some "1700000000000"
    , sceneImage := some fileScene
    , originalDimensions := some sessionEx.originalDimensions
    , history := [imgA]
    , historyIndex := 0 }

/-- A concrete single-project system for the C7 counterexample: one
session, active, already persisted. -/
def sysEx : SysState :=
  ⟨appEx, some [sessionToSerializable sessionEx]⟩

/-- C7 counterexample: deleting the last remaining project removes it from
the in-memory collection and clears the active pointer, but the persisted
store still contains the deleted project — the claimed eviction
"including when it was the last remaining project" does not happen,
because the save effect only runs for a nonempty collection. -/
theorem claim_C7_counterexample :
    (deleteSessionAndPersist sysEx "1700000000000").app.sessions = []
    ∧ (deleteSessionAndPersist sysEx "1700000000000").app.activeSessionId = none
    ∧ (deleteSessionAndPersist sysEx "1700000000000").store
        = some [sessionToSerializable sessionEx] := by
  refine ⟨rfl, rfl, rfl⟩

/-- C7 amended: deletion always removes the project from the in-memory
collection; when at least one project remains the collection (without the
deleted project) is persisted, but when none remain the store is left
unchanged, still containing the deleted project. If the deleted project
was active, the first remaining project — the most recently created one,
as the collection is ordered newest-first — becomes active, or the
active pointer is cleared when none remain. -/
theorem claim_C7_delete_session (sys : SysState) (sid : String)
    (hsorted : sys.app.sessions.Pairwise (fun a b => b.timestamp ≤ a.timestamp)) :
    ((deleteSessionAndPersist sys sid).app.sessions
        = sys.app.sessions.filter (fun x => x.id != sid))
    ∧ ((deleteSessionAndPersist sys sid).app.sessions ≠ [] →
        (deleteSessionAndPersist sys sid).store
          = some ((deleteSessionAndPersist sys sid).app.sessions.map sessionToSerializable))
    ∧ ((deleteSessionAndPersist sys sid).app.sessions = [] →
        (deleteSessionAndPersist sys sid).store = sys.store)
    ∧ (sys.app.activeSessionId = some sid →
        ((deleteSessionAndPersist sys sid).app.sessions = [] →
            (deleteSessionAndPersist sys sid).app.activeSessionId = none)
        ∧ ∀ r rest, (deleteSessionAndPersist sys sid).app.sessions = r :: rest →
            (deleteSessionAndPersist sys sid).app.activeSessionId = some r.id
            ∧ ∀ t ∈ (deleteSessionAndPersist sys sid).app.sessions,
                t.timestamp ≤ r.timestamp) := by
  have happ : (deleteSessionAndPersist sys sid).app = handleDeleteSession sys.app sid :=
    saveEffect_app _
  have hsess : (deleteSessionAndPersist sys sid).app.sessions
      = sys.app.sessions.filter (fun x => x.id != sid) := by
    rw [happ, handleDeleteSession_sessions]
  refine ⟨hsess, ?_, ?_, ?_⟩
  · intro hne
    rw [happ] at hne
    unfold deleteSessionAndPersist
    rw [saveEffect_store_of_ne_nil ⟨handleDeleteSession sys.app sid, sys.store⟩ hne,
        saveEffect_app]
  · intro hnil
    rw [happ] at hnil
    unfold deleteSessionAndPersist
    rw [saveEffect_store_of_nil ⟨handleDeleteSession sys.app sid, sys.store⟩ hnil]
  · intro hActive
    constructor
    · intro hnil
      have hF : sys.app.sessions.filter (fun x => x.id != sid) = [] := by
        rw [← hsess]; exact hnil
      rw [happ]
      unfold handleDeleteSession
      rw [if_pos hActive, hF]
      rfl
    · intro r rest hcons
      have hF : sys.app.sessions.filter (fun x => x.id != sid) = r :: rest := by
        rw [← hsess]; exact hcons
      obtain ⟨sess, hfind, hid⟩ := find?_head_of_filter sys.app.sessions sid r rest hF
      constructor
      · rw [happ]
        unfold handleDeleteSession
        rw [if_pos hActive, hF]
        rw [handleSelectSessionFrom_active sys.app.sessions _ r.id sess hfind, hid]
      · intro t ht
        rw [hsess, hF] at ht
        rcases List.mem_cons.mp ht with hteq | htrest
        · exact hteq ▸ le_refl _
        · have hpair := (hsorted.filter (fun x => x.id != sid))
          rw [hF] at hpair
          exact (List.pairwise_cons.mp hpair).1 t htrest

/-! ### Generation flow (App.tsx) -/

/-- `executeGeneration` (App.tsx lines 226-271): choose the working image
(sketch, else currently displayed generation, else original scene); bail
out with an error message when project data is missing; otherwise run
the remote generation, abstracted as `result` (the awaited `redesignRoom`
call plus the fetch of the produced image — a thrown error is
`Except.error`). On success the new image is appended to the history, the
consumed sketch and product are cleared, and the prompt is cleared unless
this is the scenery flow; on failure only the error message is set. -/
def executeGeneration (s : AppState) (customPrompt : String) (isScenery : Bool)
    (result : Except String FileData) : AppState :=
  if (match s.sketchedImage with
      | some f => some f
      | none =>
          match currentGeneratedImage s with
          | some f => some f
          | none => s.sceneImage) = none
      ∨ s.sceneImage = none ∨ customPrompt = "" ∨ s.originalDimensions = none then
    { s with error := some "Missing project data. Please ensure an image is uploaded." }
  else
    match result with
    | .error msg =>
        { s with error := some ("Failed to generate the image. " ++ msg) }
    | .ok newFile =>
        let s1 := addImageToHistory { s with error := none } newFile
        { s1 with sketchedImage := none, productImage := none
                , prompt := if isScenery then s1.prompt else "" }

/-- C9: a failed generation request leaves the whole working state —
prompt, sketch overlay, product selection, generations list, cursor,
session collection, scene image, original dimensions, active pointer —
identical; only the error message field is set. -/
theorem claim_C9_failure_preserves_state (s : AppState) (customPrompt : String)
    (isScenery : Bool) (msg : String) :
    (executeGeneration s customPrompt isScenery (.error msg)).prompt = s.prompt
    ∧ (executeGeneration s customPrompt isScenery (.error msg)).sketchedImage
        = s.sketchedImage
    ∧ (executeGeneration s customPrompt isScenery (.error msg)).productImage
        = s.productImage
    ∧ (executeGeneration s customPrompt isScenery (.error msg)).history = s.history
    ∧ (executeGeneration s customPrompt isScenery (.error msg)).historyIndex
        = s.historyIndex
    ∧ (executeGeneration s customPrompt isScenery (.error msg)).sessions = s.sessions
    ∧ (executeGeneration s customPrompt isScenery (.error msg)).sceneImage
        = s.sceneImage
    ∧ (executeGeneration s customPrompt isScenery (.error msg)).originalDimensions
        = s.originalDimensions
    ∧ (executeGeneration s customPrompt isScenery (.error msg)).activeSessionId
        = s.activeSessionId
    ∧ (executeGeneration s customPrompt isScenery (.error msg)).error.isSome = true := by
  unfold executeGeneration
  split
  · exact ⟨rfl, rfl, rfl, rfl, rfl, rfl, rfl, rfl, rfl, rfl⟩
  · exact ⟨rfl, rfl, rfl, rfl, rfl, rfl, rfl, rfl, rfl, rfl⟩

/-! ### C10: undo/redo frame effects and cursor persistence -/

/-- The store written by the save effect, as a conditional. -/
theorem saveEffect_store_eq (sys : SysState) :
    (saveEffect sys).store
      = if 0 < sys.app.sessions.length
        then some (sys.app.sessions.map sessionToSerializable)
        else sys.store := by
  unfold saveEffect
  split <;> rfl

/-- Undo changes only the cursor. -/
theorem handleUndo_frame (s : AppState) :
    (handleUndo s).history = s.history ∧ (handleUndo s).sessions = s.sessions
    ∧ (handleUndo s).sketchedImage = s.sketchedImage
    ∧ (handleUndo s).productImage = s.productImage
    ∧ (handleUndo s).prompt = s.prompt
    ∧ (handleUndo s).activeSessionId = s.activeSessionId := by
  unfold handleUndo
  split <;> exact ⟨rfl, rfl, rfl, rfl, rfl, rfl⟩

/-- Redo changes only the cursor. -/
theorem handleRedo_frame (s : AppState) :
    (handleRedo s).history = s.history ∧ (handleRedo s).sessions = s.sessions
    ∧ (handleRedo s).sketchedImage = s.sketchedImage
    ∧ (handleRedo s).productImage = s.productImage
    ∧ (handleRedo s).prompt = s.prompt
    ∧ (handleRedo s).activeSessionId = s.activeSessionId := by
  unfold handleRedo
  split <;> exact ⟨rfl, rfl, rfl, rfl, rfl, rfl⟩

/-- The persisted store depends only on the session collection. -/
theorem saveEffect_store_congr (a b : AppState)
    (st : Option (List SerializableDesignSession)) (h : a.sessions = b.sessions) :
    (saveEffect ⟨a, st⟩).store = (saveEffect ⟨b, st⟩).store := by
  rw [saveEffect_store_eq, saveEffect_store_eq]
  dsimp only
  rw [h]

/-- C10: undo and redo modify only the cursor — the in-memory history and
the session collection are untouched, so any save effect writes the same
persisted blob as before; the persisted blob does not depend on the
cursor at all (the serialized session has no cursor field); truncation of
undone versions reaches the session collection exactly at the next
append; and selecting (re-loading) a session always puts the cursor back
on its last generation. -/
theorem claim_C10_undo_redo_frame (s : AppState)
    (st : Option (List SerializableDesignSession))
    (aid sid : String) (sess : DesignSession)
    (hactive : s.activeSessionId = some aid)
    (hfind : s.sessions.find? (fun x => x.id == sid) = some sess) :
    ((handleUndo s).history = s.history ∧ (handleUndo s).sessions = s.sessions
      ∧ (handleUndo s).sketchedImage = s.sketchedImage
      ∧ (handleUndo s).productImage = s.productImage
      ∧ (handleUndo s).prompt = s.prompt)
    ∧ ((handleRedo s).history = s.history ∧ (handleRedo s).sessions = s.sessions
      ∧ (handleRedo s).sketchedImage = s.sketchedImage
      ∧ (handleRedo s).productImage = s.productImage
      ∧ (handleRedo s).prompt = s.prompt)
    ∧ (saveEffect ⟨handleUndo s, st⟩).store = (saveEffect ⟨s, st⟩).store
    ∧ (saveEffect ⟨handleRedo s, st⟩).store = (saveEffect ⟨s, st⟩).store
    ∧ (∀ c : Int, (saveEffect ⟨{ s with historyIndex := c }, st⟩).store
        = (saveEffect ⟨s, st⟩).store)
    ∧ (∀ img : FileData, (addImageToHistory s img).sessions
        = s.sessions.map fun x =>
            if x.id == aid
            then { x with generations :=
                    sliceToEnd s.history (s.historyIndex + 1) ++ [img] }
            else x)
    ∧ ((handleSelectSession s sid).history = sess.generations
        ∧ (handleSelectSession s sid).historyIndex
            = (sess.generations.length : Int) - 1) := by
  obtain ⟨hu1, hu2, hu3, hu4, hu5, hu6⟩ := handleUndo_frame s
  obtain ⟨hr1, hr2, hr3, hr4, hr5, hr6⟩ := handleRedo_frame s
  refine ⟨⟨hu1, hu2, hu3, hu4, hu5⟩, ⟨hr1, hr2, hr3, hr4, hr5⟩, ?_, ?_, ?_, ?_, ?_⟩
  · exact saveEffect_store_congr _ _ st hu2
  · exact saveEffect_store_congr _ _ st hr2
  · intro c
    exact saveEffect_store_congr _ _ st rfl
  · intro img
    unfold addImageToHistory
    rw [hactive]
  · unfold handleSelectSession handleSelectSessionFrom
    rw [hfind]
    exact ⟨rfl, rfl⟩

/-- A concrete two-project system, newest first, newest active. -/
def sysEx2 : SysState :=
  ⟨{ initState with
      sessions := [sessionEx0, sessionEx]
    , activeSessionId := some "1700000000001" },
    some ([sessionEx0, sessionEx].map sessionToSerializable)⟩

/-- Witness for the amended C7: deleting the active newest of two
projects keeps the other one, persists the smaller collection, and
activates the remaining (most recently created) project. -/
theorem claim_C7_delete_session_witness :
    ((deleteSessionAndPersist sysEx2 "1700000000001").app.sessions
        = sysEx2.app.sessions.filter (fun x => x.id != "1700000000001"))
    ∧ ((deleteSessionAndPersist sysEx2 "1700000000001").app.sessions ≠ [] →
        (deleteSessionAndPersist sysEx2 "1700000000001").store
          = some ((deleteSessionAndPersist sysEx2 "1700000000001").app.sessions.map
              sessionToSerializable))
    ∧ ((deleteSessionAndPersist sysEx2 "1700000000001").app.sessions = [] →
        (deleteSessionAndPersist sysEx2 "1700000000001").store = sysEx2.store)
    ∧ (sysEx2.app.activeSessionId = some "1700000000001" →
        ((deleteSessionAndPersist sysEx2 "1700000000001").app.sessions = [] →
            (deleteSessionAndPersist sysEx2 "1700000000001").app.activeSessionId = none)
        ∧ ∀ r rest,
            (deleteSessionAndPersist sysEx2 "1700000000001").app.sessions = r :: rest →
            (deleteSessionAndPersist sysEx2 "1700000000001").app.activeSessionId
                = some r.id
            ∧ ∀ t ∈ (deleteSessionAndPersist sysEx2 "1700000000001").app.sessions,
                t.timestamp ≤ r.timestamp) :=
  claim_C7_delete_session sysEx2 "1700000000001" (by decide)

/-- Witness for C10 on a concrete one-session state with the cursor on
its single generation. -/
theorem claim_C10_undo_redo_frame_witness :
    ((handleUndo appEx).history = appEx.history
      ∧ (handleUndo appEx).sessions = appEx.sessions
      ∧ (handleUndo appEx).sketchedImage = appEx.sketchedImage
      ∧ (handleUndo appEx).productImage = appEx.productImage
      ∧ (handleUndo appEx).prompt = appEx.prompt)
    ∧ ((handleRedo appEx).history = appEx.history
      ∧ (handleRedo appEx).sessions = appEx.sessions
      ∧ (handleRedo appEx).sketchedImage = appEx.sketchedImage
      ∧ (handleRedo appEx).productImage = appEx.productImage
      ∧ (handleRedo appEx).prompt = appEx.prompt)
    ∧ (saveEffect ⟨handleUndo appEx, some [sessionToSerializable sessionEx]⟩).store
        = (saveEffect ⟨appEx, some [sessionToSerializable sessionEx]⟩).store
    ∧ (saveEffect ⟨handleRedo appEx, some [sessionToSerializable sessionEx]⟩).store
        = (saveEffect ⟨appEx, some [sessionToSerializable sessionEx]⟩).store
    ∧ (∀ c : Int,
        (saveEffect ⟨{ appEx with historyIndex := c },
            some [sessionToSerializable sessionEx]⟩).store
          = (saveEffect ⟨appEx, some [sessionToSerializable sessionEx]⟩).store)
    ∧ (∀ img : FileData, (addImageToHistory appEx img).sessions
        = appEx.sessions.map fun x =>
            if x.id == "1700000000000"
            then { x with generations :=
                    sliceToEnd appEx.history (appEx.historyIndex + 1) ++ [img] }
            else x)
    ∧ ((handleSelectSession appEx "1700000000000").history = sessionEx.generations
        ∧ (handleSelectSession appEx "1700000000000").historyIndex
            = (sessionEx.generations.length : Int) - 1) :=
  claim_C10_undo_redo_frame appEx (some [sessionToSerializable sessionEx])
    "1700000000000" "1700000000000" sessionEx rfl (by decide)
